import Mathlib

/-!
Verification development for the vin-proxy webhook service.

The definitions below are a shallow embedding of the canonical service
implementation (src/unnamed/part_000): the VIN/email/order-id extractor, the
report assembler, the in-memory dedupe store, the webhook-secret check and the
order webhook handler.  JSON payloads are modelled as a tagged tree, JavaScript
value coercions (truthiness, String conversion, the logical-or default idiom)
are modelled explicitly, and the handler is a pure function of an environment
(configuration plus the external decode API as an oracle), the current clock,
the entropy used for the fallback order key, the request, and the dedupe state.
External collaborators (the decode HTTP API, the PDF renderer, the SMTP
transport) are modelled at their interfaces: the decode API as an oracle in the
environment, the renderer as an always-available effect, the mailer as the list
of dispatched messages (gated by the email-enabled flag, as in the source).

Machine integers do not occur in the source (Node numbers used here are clock
milliseconds and HTTP statuses); hashes are computed over Nat with explicit
mod 2^32 arithmetic.
-/

/-! ## JSON value model -/

/-- A JSON-compatible value, as received by the webhook after body parsing.
Objects keep their fields in insertion order, which is the order
Object.entries iterates for the string keys used by these payloads. -/
inductive Json where
  | null : Json
  | bool (b : Bool) : Json
  | num (n : Int) : Json
  | str (s : String) : Json
  | arr (elts : List Json) : Json
  | obj (fields : List (String × Json)) : Json

mutual
/-- Structural equality test for Json values. -/
def Json.beq : Json → Json → Bool
  | .null, .null => true
  | .bool a, .bool b => a == b
  | .num a, .num b => a == b
  | .str a, .str b => a == b
  | .arr xs, .arr ys => Json.beqList xs ys
  | .obj xs, .obj ys => Json.beqFields xs ys
  | _, _ => false

def Json.beqList : List Json → List Json → Bool
  | [], [] => true
  | a :: as, b :: bs => Json.beq a b && Json.beqList as bs
  | _, _ => false

def Json.beqFields : List (String × Json) → List (String × Json) → Bool
  | [], [] => true
  | (k, v) :: as, (k2, v2) :: bs => k == k2 && Json.beq v v2 && Json.beqFields as bs
  | _, _ => false
end

mutual
theorem Json.beq_refl : ∀ j, Json.beq j j = true
  | .null => rfl
  | .bool b => by simp [Json.beq]
  | .num n => by simp [Json.beq]
  | .str s => by simp [Json.beq]
  | .arr xs => by simp [Json.beq, Json.beqList_refl xs]
  | .obj fs => by simp [Json.beq, Json.beqFields_refl fs]

theorem Json.beqList_refl : ∀ l, Json.beqList l l = true
  | [] => rfl
  | a :: as => by simp [Json.beqList, Json.beq_refl a, Json.beqList_refl as]

theorem Json.beqFields_refl : ∀ l, Json.beqFields l l = true
  | [] => rfl
  | (k, v) :: as => by simp [Json.beqFields, Json.beq_refl v, Json.beqFields_refl as]
end

mutual
theorem Json.eq_of_beq : ∀ (a b : Json), Json.beq a b = true → a = b
  | .null, b, h => by cases b <;> simp [Json.beq] at h ⊢
  | .bool x, b, h => by cases b <;> simp [Json.beq] at h ⊢; exact h
  | .num x, b, h => by cases b <;> simp [Json.beq] at h ⊢; exact h
  | .str x, b, h => by cases b <;> simp [Json.beq] at h ⊢; exact h
  | .arr xs, b, h => by
    cases b <;> simp [Json.beq] at h ⊢
    case arr ys => exact Json.eqList_of_beq xs ys h
  | .obj fs, b, h => by
    cases b <;> simp [Json.beq] at h ⊢
    case obj gs => exact Json.eqFields_of_beq fs gs h

theorem Json.eqList_of_beq : ∀ (a b : List Json), Json.beqList a b = true → a = b
  | [], b, h => by cases b <;> simp [Json.beqList] at h ⊢
  | x :: xs, b, h => by
    cases b <;> simp [Json.beqList] at h ⊢
    case cons y ys =>
      exact ⟨Json.eq_of_beq x y h.1, Json.eqList_of_beq xs ys h.2⟩

theorem Json.eqFields_of_beq :
    ∀ (a b : List (String × Json)), Json.beqFields a b = true → a = b
  | [], b, h => by cases b <;> simp [Json.beqFields] at h ⊢
  | (k, v) :: xs, b, h => by
    cases b <;> simp [Json.beqFields] at h ⊢
    case cons y ys =>
      obtain ⟨y1, y2⟩ := y
      simp at h ⊢
      exact ⟨⟨h.1.1, Json.eq_of_beq v y2 h.1.2⟩, Json.eqFields_of_beq xs ys h.2⟩
end

instance : DecidableEq Json := fun a b =>
  decidable_of_iff (Json.beq a b = true)
    ⟨Json.eq_of_beq a b, fun h => h ▸ Json.beq_refl a⟩

/-! ## JavaScript value semantics -/

/-- JavaScript truthiness: null, false, 0 and the empty string are falsy;
every object and array (even empty) is truthy. -/
def jsTruthy : Json → Bool
  | .null => false
  | .bool b => b
  | .num n => n != 0
  | .str s => s ≠ ""
  | .arr _ => true
  | .obj _ => true

mutual
/-- JavaScript String() conversion of a value.  Arrays stringify by joining
their elements with commas (null elements become empty), objects become
the literal text given by the default object toString. -/
def jsToString : Json → String
  | .null => "null"
  | .bool b => if b then "true" else "false"
  | .num n => toString n
  | .str s => s
  | .arr xs => jsArrJoin xs
  | .obj _ => "[object Object]"

def jsArrJoin : List Json → String
  | [] => ""
  | [x] => jsArrElem x
  | x :: y :: r => jsArrElem x ++ "," ++ jsArrJoin (y :: r)

def jsArrElem : Json → String
  | .null => ""
  | .bool b => if b then "true" else "false"
  | .num n => toString n
  | .str s => s
  | .arr xs => jsArrJoin xs
  | .obj _ => "[object Object]"
end

/-- Models the source idiom String(v || ""): a falsy value stringifies to
the empty string, a truthy one by String(). -/
def jsToStrFalsy (j : Json) : String :=
  if jsTruthy j then jsToString j else ""

/-- Models the JavaScript a || b chain on values: the first operand when
truthy, otherwise the second. -/
def jsOr (a b : Json) : Json :=
  if jsTruthy a then a else b

/-- First field with the given key of an object field list. -/
def lookupField : List (String × Json) → String → Option Json
  | [], _ => none
  | (k, v) :: r, q => if k = q then some v else lookupField r q

/-- Property read j.k as an Option (undefined is none).  Property reads on
non-objects yield undefined for the keys used by this service. -/
def Json.get (j : Json) (k : String) : Option Json :=
  match j with
  | .obj fs => lookupField fs k
  | _ => none

/-- Optional-chaining property read a?.k with undefined collapsed to null
(both are falsy and the source only consumes the result through truthiness
tests, || defaults, and String(v || "")). -/
def getJ (j : Json) (k : String) : Json :=
  (Json.get j k).getD .null

/-- Optional-chaining path read a?.k1?.k2?... . -/
def getPath (j : Json) (p : List String) : Json :=
  p.foldl getJ j

/-- Object.entries for values of typeof object: field list of an object,
index-value pairs of an array. -/
def jsEntries : Json → Option (List (String × Json))
  | .obj fs => some fs
  | .arr xs => some ((xs.enum).map (fun p => (toString p.1, p.2)))
  | _ => none

/-! ## String helpers (JavaScript trim, case mapping, includes) -/

/-- Whitespace removed by String.prototype.trim (ASCII whitespace and
no-break space cover the payloads this service sees). -/
def isJsWs (c : Char) : Bool :=
  c = ' ' || c = '\t' || c = '\n' || c = '\r' ||
  c = Char.ofNat 11 || c = Char.ofNat 12 || c = Char.ofNat 160

/-- String.prototype.trim. -/
def jsTrim (s : String) : String :=
  ⟨((s.data.dropWhile isJsWs).reverse.dropWhile isJsWs).reverse⟩

/-- toUpperCase (the payload fields are ASCII, where Char.toUpper agrees
with the JavaScript mapping). -/
def toUpperStr (s : String) : String :=
  ⟨s.data.map Char.toUpper⟩

/-- toLowerCase, same ASCII note as toUpperStr. -/
def toLowerStr (s : String) : String :=
  ⟨s.data.map Char.toLower⟩

/-- Whether the needle list occurs as a prefix of the haystack list. -/
def listStarts : List Char → List Char → Bool
  | [], _ => true
  | _ :: _, [] => false
  | a :: as, b :: bs => a == b && listStarts as bs

/-- Whether the needle occurs contiguously anywhere in the haystack
(String.prototype.includes). -/
def listContains : List Char → List Char → Bool
  | [], needle => needle.isEmpty
  | h :: t, needle => listStarts needle (h :: t) || listContains t needle

/-- String.prototype.includes. -/
def strContains (hay needle : String) : Bool :=
  listContains hay.data needle.data

/-! ## VIN normalization and shape tests -/

/-- Characters kept by the replace of sanitizeVin: the class A-Z0-9. -/
def isUpperAlnum (c : Char) : Bool :=
  ('A' ≤ c && c ≤ 'Z') || ('0' ≤ c && c ≤ '9')

/-- sanitizeVin on an already-string argument: uppercase, remove every
character outside A-Z0-9, keep at most 25 characters. -/
def sanitizeVin (s : String) : String :=
  ⟨((s.data.map Char.toUpper).filter isUpperAlnum).take 25⟩

/-- sanitizeVin applied to an arbitrary value, modelling the
String(vin || "") coercion at its entry. -/
def sanitizeVinJ (j : Json) : String :=
  sanitizeVin (jsToStrFalsy j)

/-- Membership in the VIN character class A-HJ-NPR-Z0-9 (uppercase
alphanumeric excluding I, O, Q). -/
def vinChar (c : Char) : Bool :=
  (('A' ≤ c && c ≤ 'Z') && !(c = 'I' || c = 'O' || c = 'Q')) ||
  ('0' ≤ c && c ≤ '9')

/-- Whether the string contains one of the letters I, O, Q (the regex
test of looksLikeVin runs after uppercasing). -/
def hasIOQ (s : String) : Bool :=
  s.data.any (fun c => c = 'I' || c = 'O' || c = 'Q')

/-- Full-string match of the VIN shape regex with bound 11 to 25. -/
def vinShape (s : String) : Bool :=
  11 ≤ s.length && s.length ≤ 25 && s.data.all vinChar

/-- The case-insensitive variant of the VIN shape regex used by the
extractor value checks. -/
def vinShapeCI (s : String) : Bool :=
  vinShape (toUpperStr s)

/-- looksLikeVin from the source: reject falsy input, trim and uppercase,
reject I/O/Q, then require the full string to match the 11-25 VIN shape. -/
def looksLikeVin (s : String) : Bool :=
  if s = "" then false
  else
    let t := toUpperStr (jsTrim s)
    if hasIOQ t then false
    else vinShape t

/-! ## SHA-1 (crypto.createHash sha1 over the ASCII strings hashed here) -/

/-- Reduction to a 32-bit word. -/
def u32 (n : Nat) : Nat := n % 4294967296

/-- 32-bit left rotation. -/
def rotl (n x : Nat) : Nat :=
  ((x <<< n) ||| (x >>> (32 - n))) % 4294967296

/-- SHA-1 round function. -/
def sha1F (i b c d : Nat) : Nat :=
  if i < 20 then (b &&& c) ||| ((b ^^^ 4294967295) &&& d)
  else if i < 40 then (b ^^^ c) ^^^ d
  else if i < 60 then ((b &&& c) ||| (b &&& d)) ||| (c &&& d)
  else (b ^^^ c) ^^^ d

/-- SHA-1 round constants. -/
def sha1K (i : Nat) : Nat :=
  if i < 20 then 0x5A827999
  else if i < 40 then 0x6ED9EBA1
  else if i < 60 then 0x8F1BBCDC
  else 0xCA62C1D6

/-- Big-endian 8-byte encoding of the bit length. -/
def lenBytes8 (bits : Nat) : List Nat :=
  [(bits >>> 56) &&& 255, (bits >>> 48) &&& 255, (bits >>> 40) &&& 255,
   (bits >>> 32) &&& 255, (bits >>> 24) &&& 255, (bits >>> 16) &&& 255,
   (bits >>> 8) &&& 255, bits &&& 255]

/-- SHA-1 message padding. -/
def sha1Pad (msg : List Nat) : List Nat :=
  let len := msg.length
  let zeros := (119 - len % 64) % 64
  msg ++ 128 :: List.replicate zeros 0 ++ lenBytes8 (8 * len)

/-- Big-endian packing of bytes into 32-bit words. -/
def bytesToWords : List Nat → List Nat
  | a :: b :: c :: d :: rest => (((a * 256 + b) * 256 + c) * 256 + d) :: bytesToWords rest
  | _ => []

/-- Split a word list into 16-word blocks (fuel is the list length). -/
def chunk16 : Nat → List Nat → List (List Nat)
  | 0, _ => []
  | _, [] => []
  | f + 1, w => w.take 16 :: chunk16 f (w.drop 16)

/-- Message-schedule expansion; rev holds the words produced so far, most
recent first, and n counts the words still to produce. -/
def sha1Expand (rev : List Nat) : Nat → List Nat
  | 0 => rev
  | n + 1 =>
    let w := rotl 1 (((rev.getD 2 0 ^^^ rev.getD 7 0) ^^^ rev.getD 13 0) ^^^ rev.getD 15 0)
    sha1Expand (w :: rev) n

/-- The 80 compression rounds. -/
def sha1Rounds : List Nat → Nat → Nat × Nat × Nat × Nat × Nat → Nat × Nat × Nat × Nat × Nat
  | [], _, st => st
  | w :: ws, i, (a, b, c, d, e) =>
    let t := u32 (rotl 5 a + sha1F i b c d + e + sha1K i + w)
    sha1Rounds ws (i + 1) (t, a, rotl 30 b, c, d)

/-- One 512-bit block step. -/
def sha1Block (h : Nat × Nat × Nat × Nat × Nat) (block : List Nat) :
    Nat × Nat × Nat × Nat × Nat :=
  let ws := (sha1Expand block.reverse 64).reverse
  match h, sha1Rounds ws 0 h with
  | (h0, h1, h2, h3, h4), (a, b, c, d, e) =>
    (u32 (h0 + a), u32 (h1 + b), u32 (h2 + c), u32 (h3 + d), u32 (h4 + e))

/-- SHA-1 digest of a byte list as a five-word state. -/
def sha1Digest (msg : List Nat) : Nat × Nat × Nat × Nat × Nat :=
  let ws := bytesToWords (sha1Pad msg)
  (chunk16 ws.length ws).foldl sha1Block
    (0x67452301, 0xEFCDAB89, 0x98BADCFE, 0x10325476, 0xC3D2E1F0)

/-- Lowercase hex digit. -/
def hexDigit (n : Nat) : Char :=
  if n < 10 then Char.ofNat (48 + n) else Char.ofNat (87 + n)

/-- Eight-digit hex rendering of a 32-bit word. -/
def hex8 (w : Nat) : String :=
  ⟨[hexDigit ((w >>> 28) &&& 15), hexDigit ((w >>> 24) &&& 15),
    hexDigit ((w >>> 20) &&& 15), hexDigit ((w >>> 16) &&& 15),
    hexDigit ((w >>> 12) &&& 15), hexDigit ((w >>> 8) &&& 15),
    hexDigit ((w >>> 4) &&& 15), hexDigit (w &&& 15)]⟩

/-- Hex digest as produced by digest(hex). -/
def sha1Hex (msg : List Nat) : String :=
  match sha1Digest msg with
  | (h0, h1, h2, h3, h4) => hex8 h0 ++ hex8 h1 ++ hex8 h2 ++ hex8 h3 ++ hex8 h4

/-- Bytes of a string (code points; identical to UTF-8 for the ASCII
strings hashed by this service). -/
def strBytes (s : String) : List Nat :=
  s.data.map Char.toNat

/-! ## Calendar conversion (toISOString) -/

/-- Left-pad a rendered number to two digits. -/
def pad2 (n : Nat) : String :=
  if n < 10 then "0" ++ toString n else toString n

/-- Left-pad a rendered number to three digits. -/
def pad3 (n : Nat) : String :=
  if n < 10 then "00" ++ toString n
  else if n < 100 then "0" ++ toString n else toString n

/-- Left-pad a rendered number to four digits. -/
def pad4 (n : Nat) : String :=
  if n < 10 then "000" ++ toString n
  else if n < 100 then "00" ++ toString n
  else if n < 1000 then "0" ++ toString n else toString n

/-- Proleptic Gregorian calendar date of a day count since 1970-01-01. -/
def civilFromDays (z0 : Nat) : Nat × Nat × Nat :=
  let z := z0 + 719468
  let era := z / 146097
  let doe := z % 146097
  let yoe := ((doe + doe / 36524) - (doe / 1460 + doe / 146096)) / 365
  let y := yoe + era * 400
  let doy := doe - ((365 * yoe + yoe / 4) - yoe / 100)
  let mp := (5 * doy + 2) / 153
  let d := (doy - (153 * mp + 2) / 5) + 1
  let m := if mp < 10 then mp + 3 else mp - 9
  (if m ≤ 2 then y + 1 else y, m, d)

/-- The calendar-day prefix of toISOString: YYYY-MM-DD in UTC, from a clock
value in milliseconds since the epoch. -/
def isoDay (now : Nat) : String :=
  match civilFromDays (now / 86400000) with
  | (y, m, d) => pad4 y ++ "-" ++ pad2 m ++ "-" ++ pad2 d

/-- Full toISOString rendering. -/
def isoDateTime (now : Nat) : String :=
  isoDay now ++ "T" ++ pad2 (now / 3600000 % 24) ++ ":" ++ pad2 (now / 60000 % 60) ++
  ":" ++ pad2 (now / 1000 % 60) ++ "." ++ pad3 (now % 1000) ++ "Z"

/-- makeReportId from the source: the first ten hex digits, uppercased, of
the SHA-1 of vin, a pipe, and the current calendar day. -/
def makeReportId (now : Nat) (vin : String) : String :=
  toUpperStr ⟨(sha1Hex (strBytes (vin ++ "|" ++ isoDay now))).data.take 10⟩

/-! ## JSON.stringify with two-space indent, and safeJson -/

/-- String escaping of JSON.stringify. -/
def jsonEscChars : List Char → List Char
  | [] => []
  | c :: r =>
    (if c = '"' then ['\\', '"']
     else if c = '\\' then ['\\', '\\']
     else if c = '\n' then ['\\', 'n']
     else if c = '\t' then ['\\', 't']
     else if c = '\r' then ['\\', 'r']
     else if c = Char.ofNat 8 then ['\\', 'b']
     else if c = Char.ofNat 12 then ['\\', 'f']
     else if c.toNat < 32 then
       ['\\', 'u', '0', '0', hexDigit (c.toNat / 16), hexDigit (c.toNat % 16)]
     else [c]) ++ jsonEscChars r

/-- Quoted JSON string literal. -/
def jsonQuote (s : String) : String :=
  "\"" ++ ⟨jsonEscChars s.data⟩ ++ "\""

/-- Indentation gap of the given depth for a two-space indent. -/
def jsonGap (depth : Nat) : String :=
  ⟨List.replicate (2 * depth) ' '⟩

mutual
/-- JSON.stringify(v, null, 2) at a given depth. -/
def jsonStringify : Json → Nat → String
  | .null, _ => "null"
  | .bool b, _ => if b then "true" else "false"
  | .num n, _ => toString n
  | .str s, _ => jsonQuote s
  | .arr [], _ => "[]"
  | .arr (x :: xs), depth =>
    "[\n" ++ jsonItems (x :: xs) (depth + 1) ++ "\n" ++ jsonGap depth ++ "]"
  | .obj [], _ => "\x7b\x7d"
  | .obj (f :: fs), depth =>
    "\x7b\n" ++ jsonFields (f :: fs) (depth + 1) ++ "\n" ++ jsonGap depth ++ "\x7d"

def jsonItems : List Json → Nat → String
  | [], _ => ""
  | [x], depth => jsonGap depth ++ jsonStringify x depth
  | x :: y :: r, depth =>
    jsonGap depth ++ jsonStringify x depth ++ ",\n" ++ jsonItems (y :: r) depth

def jsonFields : List (String × Json) → Nat → String
  | [], _ => ""
  | [(k, v)], depth => jsonGap depth ++ jsonQuote k ++ ": " ++ jsonStringify v depth
  | (k, v) :: g :: r, depth =>
    jsonGap depth ++ jsonQuote k ++ ": " ++ jsonStringify v depth ++ ",\n" ++
    jsonFields (g :: r) depth
end

/-- safeJson from the source: pretty-print the payload and cap its length.
The stringify of this tree model cannot raise, so the String(obj) fallback
of the source try/catch is unreachable. -/
def safeJson (j : Json) (maxLen : Nat) : String :=
  let s := jsonStringify j 0
  if s.length > maxLen then ⟨s.data.take maxLen⟩ ++ "\n…(gekürzt)…" else s

/-! ## Report assembler -/

/-- pick from the source: in a decode array, the value field of the first
entry whose label field is exactly the requested label; undefined when the
argument is not an array or no entry matches. -/
def findLabel : List Json → String → Option Json
  | [], _ => none
  | x :: r, label =>
    if (match Json.get x "label" with
        | some (.str s) => s == label
        | _ => false) then
      Json.get x "value"
    else findLabel r label

/-- pick on an arbitrary value. -/
def pick (d : Json) (label : String) : Option Json :=
  match d with
  | .arr xs => findLabel xs label
  | _ => none

/-- The pick(...) || null idiom of the report vehicle fields. -/
def pickOr (d : Json) (label : String) : Json :=
  match pick d label with
  | some v => if jsTruthy v then v else .null
  | none => .null

/-- String(x) where x may be undefined. -/
def jsToStringU : Option Json → String
  | none => "undefined"
  | some j => jsToString j

/-- Stolen-check summary record. -/
structure StolenSummary where
  available : Bool
  status : String
  details : List (Option Json × Option Json)

/-- summarizeStolen from the source.  The details list keeps the raw code
and status fields of each row.  (The unavailable default constructed by the
report builder carries no details field in the source; it is modelled with
an empty list, which the renderer treats identically.) -/
def summarizeStolen (stolenJson : Json) : StolenSummary :=
  match getJ stolenJson "stolen" with
  | .arr (r :: rs) =>
    let rows := r :: rs
    let anyStolen := rows.any
      (fun row => toLowerStr (jsToStringU (Json.get row "status")) = "stolen")
    ⟨true, if anyStolen then "stolen" else "not-stolen",
     rows.map (fun row => (Json.get row "code", Json.get row "status"))⟩
  | _ => ⟨false, "unknown", []⟩

/-- Market-value summary record. -/
structure MarketSummary where
  available : Bool
  reason : Option Json
  data : Option Json

/-- summarizeMarketValue from the source. -/
def summarizeMarketValue (valueJson : Json) : MarketSummary :=
  if !jsTruthy valueJson || jsTruthy (getJ valueJson "error") then
    ⟨false, some (jsOr (getJ valueJson "message") (.str "no_data")), none⟩
  else ⟨true, none, some valueJson⟩

/-- The field names deleted by stripInternalFields. -/
def internalFieldNames : List String := ["balance", "price", "price_currency"]

/-- stripInternalFields from the source: non-objects pass through unchanged
(the JSON round-trip deep copy is the identity on this tree model), and the
three internal field names are deleted from the top level of an object. -/
def stripInternalFields (j : Json) : Json :=
  match j with
  | .obj fs => .obj (fs.filter (fun kv => !(internalFieldNames.contains kv.1)))
  | other => other

mutual
/-- Whether a field with the given key occurs anywhere in the tree. -/
def containsKeyDeep : Json → String → Bool
  | .obj fs, k => fieldsKeyDeep fs k
  | .arr xs, k => elemsKeyDeep xs k
  | _, _ => false

def fieldsKeyDeep : List (String × Json) → String → Bool
  | [], _ => false
  | (k2, v) :: r, k => k2 == k || containsKeyDeep v k || fieldsKeyDeep r k

def elemsKeyDeep : List Json → String → Bool
  | [], _ => false
  | x :: r, k => containsKeyDeep x k || elemsKeyDeep r k
end

/-- Response of one external decode-API call, as seen through getJson:
ok flag, HTTP status, parsed body (empty object when unparsable), raw text. -/
structure VincResp where
  ok : Bool
  status : Nat
  json : Json
  rawText : String

/-- Flat vehicle attribute record of the premium report. -/
structure Vehicle where
  make : Json
  model : Json
  year : Json
  body : Json
  fuel : Json
  transmission : Json
  manufacturer : Json
  plant_country : Json
  engine_ccm : Json
  engine_code : Json
  engine_type : Json
  drive : Json
  co2_g_km : Json
  consumption_urban : Json
  doors : Json
  seats : Json
  length_mm : Json
  width_mm : Json
  height_mm : Json
  wheelbase_mm : Json
  weight_empty_kg : Json
  max_weight_kg : Json
  max_speed_kmh : Json
  wheel_size : Json
  brakes_front : Json
  brake_system : Json
  steering_type : Json
  suspension : Json

/-- Premium checks block. -/
structure Checks where
  stolen : StolenSummary
  market_value : MarketSummary

/-- The premium VehicleReport record. -/
structure Report where
  vin : String
  report_id : String
  email : Json
  vehicle : Vehicle
  checks : Checks
  vin_decode_raw : Json
  generated_at : String
  disclaimer : String

/-- The disclaimer constant of the report. -/
def reportDisclaimer : String :=
  "Informationsbericht auf Basis verfügbarer Datenquellen. Keine Garantie für Vollständigkeit, Richtigkeit oder tatsächlichen Zustand des Fahrzeugs."

/-- Service configuration plus the external decode API as an oracle from
sanitized VIN and action to the observed response. -/
structure Env where
  webhookSecret : String
  adminEmail : String
  emailEnabled : Bool
  pdfEnabled : Bool
  vincario : String → String → VincResp

/-- vincarioGet from the source: sanitize the VIN and perform the external
call for the action (URL and control-checksum construction belong to the
external HTTP contract and are absorbed into the oracle). -/
def vincarioGet (env : Env) (vin action : String) : VincResp :=
  env.vincario (sanitizeVin vin) action

/-- Result of buildPremiumReport: the decode_failed error object or the
built report. -/
inductive BuildOut where
  | failed (error : String) (status : Nat) (raw : String) : BuildOut
  | built (report : Report) : BuildOut

/-- The mandatory-decode guard of the report builders: the decode call
succeeded and its body has a truthy decode field. -/
def decodeOk (env : Env) (vin : String) : Bool :=
  let decodeR := vincarioGet env vin "decode"
  decodeR.ok && jsTruthy (getJ decodeR.json "decode")

/-- buildPremiumReport from the source, also returning the list of external
calls it performed as (action, sanitized vin) pairs. -/
def buildPremiumReport (env : Env) (now : Nat) (vin : String) (email : Json) :
    BuildOut × List (String × String) :=
  let decodeR := vincarioGet env vin "decode"
  if !decodeR.ok || !jsTruthy (getJ decodeR.json "decode") then
    (.failed "decode_failed" decodeR.status decodeR.rawText, [("decode", sanitizeVin vin)])
  else
    let stolenR := vincarioGet env vin "stolen-check"
    let valueR := vincarioGet env vin "vehicle-market-value"
    let d := getJ decodeR.json "decode"
    let v := sanitizeVin vin
    (.built
      { vin := v
        report_id := makeReportId now v
        email := email
        vehicle :=
          { make := pickOr d "Make"
            model := pickOr d "Model"
            year := jsOr (pickOr d "Model Year") (pickOr d "Production Year")
            body := pickOr d "Body"
            fuel := pickOr d "Fuel Type - Primary"
            transmission := pickOr d "Transmission"
            manufacturer := pickOr d "Manufacturer"
            plant_country := pickOr d "Plant Country"
            engine_ccm := pickOr d "Engine Displacement (ccm)"
            engine_code := pickOr d "Engine Code"
            engine_type := pickOr d "Engine Type"
            drive := pickOr d "Drive"
            co2_g_km := pickOr d "CO2 Emission (g/km)"
            consumption_urban := pickOr d "Fuel Consumption Urban (l/100km)"
            doors := pickOr d "Number of Doors"
            seats := pickOr d "Number of Seats"
            length_mm := pickOr d "Length (mm)"
            width_mm := pickOr d "Width (mm)"
            height_mm := pickOr d "Height (mm)"
            wheelbase_mm := pickOr d "Wheelbase (mm)"
            weight_empty_kg := pickOr d "Weight Empty (kg)"
            max_weight_kg := pickOr d "Max Weight (kg)"
            max_speed_kmh := pickOr d "Max Speed (km/h)"
            wheel_size := pickOr d "Wheel Size"
            brakes_front := pickOr d "Front Brakes"
            brake_system := pickOr d "Brake System"
            steering_type := pickOr d "Steering Type"
            suspension := pickOr d "Suspension" }
        checks :=
          ⟨if stolenR.ok then summarizeStolen stolenR.json else ⟨false, "unavailable", []⟩,
           if valueR.ok then summarizeMarketValue valueR.json
           else ⟨false, some (.str "unavailable"), none⟩⟩
        vin_decode_raw := stripInternalFields decodeR.json
        generated_at := isoDateTime now
        disclaimer := reportDisclaimer },
     [("decode", v), ("stolen-check", v), ("vehicle-market-value", v)])

/-! ## Payload extraction -/

/-- The key-name fragments treated as VIN hints in the extendedFields scan
and the customFields fallback scan. -/
def vinKeyHints : List String := ["vin", "fin", "fahrgestell", "fahrgestellnummer"]

/-- The key-name fragments treated as VIN hints in the line-item
customTextFields scan. -/
def vinTitleHints : List String :=
  ["fin", "vin", "fahrgestell", "fahrgestellnummer", "vehicle identification", "vehicle id"]

/-- The extendedFields user-fields scan of extractVinFromOrder: for each
entry in order, skip empty values; return the sanitized value when the
lowercased key contains a hint, or else when the value matches the
case-insensitive 11-25 VIN shape. -/
def scanUserFields : List (String × Json) → Option String
  | [] => none
  | (k, v) :: rest =>
    let key := toLowerStr k
    let val := jsTrim (jsToStrFalsy v)
    if val = "" then scanUserFields rest
    else if vinKeyHints.any (fun h => strContains key h) then some (sanitizeVin val)
    else if vinShapeCI val then some (sanitizeVin val)
    else scanUserFields rest

/-- The custom-text-field scan shared by steps 1 and 2 of
extractVinFromOrder, parameterized by the hint list: for each field object,
the title is String(f?.title || f?.name || "") lowercased, the value is
String(f?.value || "") trimmed; empty values are skipped, a hinted title or
a VIN-shaped value returns the sanitized value. -/
def scanCtf (hints : List String) : List Json → Option String
  | [] => none
  | f :: rest =>
    let title := toLowerStr (jsToStrFalsy (jsOr (getJ f "title") (getJ f "name")))
    let value := jsTrim (jsToStrFalsy (getJ f "value"))
    if value = "" then scanCtf hints rest
    else if hints.any (fun h => strContains title h) then some (sanitizeVin value)
    else if vinShapeCI value then some (sanitizeVin value)
    else scanCtf hints rest

/-- Iteration over the line items of step 1.  A null element raises in the
source (property read on null), modelled as the error case; a non-array
customTextFields value is skipped by the isArray guard. -/
def scanLineItems : List Json → Except Unit (Option String)
  | [] => .ok none
  | li :: rest =>
    match li with
    | .null => .error ()
    | _ =>
      match jsOr (getJ li "customTextFields") (jsOr (getJ li "custom_text_fields") (.arr [])) with
      | .arr fs =>
        match scanCtf vinTitleHints fs with
        | some v => .ok (some v)
        | none => scanLineItems rest
      | _ => scanLineItems rest

/-- Step 2 of extractVinFromOrder: the customFields / customTextFields
fallback, guarded by an isArray check. -/
def scanOrderCustomFields (order : Json) : Option String :=
  match jsOr (getJ order "customFields") (jsOr (getJ order "customTextFields") (.arr [])) with
  | .arr fs => scanCtf vinKeyHints fs
  | _ => none

/-- extractVinFromOrder from the source.  The error case models the
TypeError raised when a truthy non-iterable lineItems value is iterated
(a string lineItems value iterates its characters, which carry none of the
read fields, hence contributes nothing). -/
def extractVinFromOrder (order : Json) : Except Unit (Option String) :=
  if !jsTruthy order then .ok none
  else
    let userFields :=
      jsOr (getPath order ["extendedFields", "namespaces", "_user_fields"])
        (getPath order ["extended_fields", "namespaces", "_user_fields"])
    let step0 :=
      if jsTruthy userFields then
        match jsEntries userFields with
        | some entries => scanUserFields entries
        | none => none
      else none
    match step0 with
    | some v => .ok (some v)
    | none =>
      match jsOr (getJ order "lineItems") (jsOr (getJ order "line_items") (.arr [])) with
      | .arr lis =>
        match scanLineItems lis with
        | .error e => .error e
        | .ok (some v) => .ok (some v)
        | .ok none => .ok (scanOrderCustomFields order)
      | .str _ => .ok (scanOrderCustomFields order)
      | _ => .error ()

/-- extractEmailFromOrder from the source: the first truthy of six
conventional paths, trimmed after String() conversion; null when the order
is falsy or no path is truthy. -/
def extractEmailFromOrder (order : Json) : Option String :=
  if !jsTruthy order then none
  else
    let e :=
      jsOr (getPath order ["buyerInfo", "email"])
        (jsOr (getPath order ["buyer_info", "email"])
          (jsOr (getPath order ["billingInfo", "address", "email"])
            (jsOr (getPath order ["billing_info", "address", "email"])
              (jsOr (getPath order ["shippingInfo", "address", "email"])
                (jsOr (getPath order ["shipping_info", "address", "email"]) .null)))))
    if !jsTruthy e then none else some (jsTrim (jsToString e))

/-- extractOrderFromWixPayload from the source: the first truthy of
payload.order, payload.data?.order, payload.body?.order for a payload of
typeof object, otherwise null. -/
def extractOrderFromWixPayload (payload : Json) : Json :=
  match payload with
  | .obj _ =>
    jsOr (getJ payload "order")
      (jsOr (getPath payload ["data", "order"]) (getPath payload ["body", "order"]))
  | .arr _ =>
    jsOr (getJ payload "order")
      (jsOr (getPath payload ["data", "order"]) (getPath payload ["body", "order"]))
  | _ => .null

/-- extractPurchaseFlowId from the source: the first truthy of seven
explicit id locations, else null. -/
def extractPurchaseFlowId (payload order : Json) : Json :=
  jsOr (getJ payload "purchaseFlowId")
    (jsOr (getJ payload "purchase_flow_id")
      (jsOr (getPath payload ["data", "purchaseFlowId"])
        (jsOr (getJ order "purchaseFlowId")
          (jsOr (getJ order "id")
            (jsOr (getJ payload "orderId")
              (jsOr (getPath payload ["data", "orderId"]) .null))))))

/-! ## Webhook security and the dedupe store -/

/-- An inbound request: the x-webhook-secret header, the secret query
parameter, and the parsed JSON body. -/
structure Req where
  headerSecret : Option String
  querySecret : Option String
  body : Json

/-- getIncomingSecret from the source: (header || query || "") as a
string. -/
def getIncomingSecret (req : Req) : String :=
  let h := req.headerSecret.getD ""
  let q := req.querySecret.getD ""
  if h ≠ "" then h else if q ≠ "" then q else ""

/-- checkWebhookAuth from the source: vacuously true when no shared secret
is configured, else exact equality with the supplied secret. -/
def checkWebhookAuth (env : Env) (req : Req) : Bool :=
  if env.webhookSecret = "" then true
  else getIncomingSecret req == env.webhookSecret

/-- The processed map: order key to expiry timestamp, insertion order. -/
def DedupeState := List (Json × Nat)

/-- The dedupe TTL of six hours in milliseconds. -/
def DEDUPE_TTL_MS : Nat := 6 * 60 * 60 * 1000

/-- Map.get on the processed map. -/
def dedupeLookup : DedupeState → Json → Option Nat
  | [], _ => none
  | (k, v) :: r, q => if k = q then some v else dedupeLookup r q

/-- Map.set on the processed map: replace in place or append. -/
def dedupeSet : DedupeState → Json → Nat → DedupeState
  | [], k, v => [(k, v)]
  | (k2, v2) :: r, k, v =>
    if k2 = k then (k, v) :: r else (k2, v2) :: dedupeSet r k v

/-- Map.delete on the processed map. -/
def dedupeDelete : DedupeState → Json → DedupeState
  | [], _ => []
  | (k2, v2) :: r, k => if k2 = k then r else (k2, v2) :: dedupeDelete r k

/-- wasProcessed from the source, with the clock and the map explicit: a
missing entry (or a falsy stored expiry) reports unprocessed; an entry whose
expiry lies strictly in the past is deleted and reports unprocessed; an
unexpired entry reports processed.  Returns the observation and the map
after the lazy deletion. -/
def wasProcessed (st : DedupeState) (now : Nat) (key : Json) : Bool × DedupeState :=
  match dedupeLookup st key with
  | none => (false, st)
  | some exp =>
    if exp = 0 then (false, st)
    else if now > exp then (false, dedupeDelete st key)
    else (true, st)

/-- markProcessed from the source: store now plus the TTL under the key. -/
def markProcessed (st : DedupeState) (now : Nat) (key : Json) : DedupeState :=
  dedupeSet st key (now + DEDUPE_TTL_MS)

/-! ## The order webhook handler -/

/-- A message handed to the mailer. -/
structure Mail where
  recipient : String
  subject : String
  text : String
deriving DecidableEq

/-- Observable side effects of one webhook delivery: external decode-API
calls as (action, vin) pairs, PDF renders, buyer messages, operator
messages. -/
structure Effects where
  vincarioCalls : List (String × String)
  pdfRenders : Nat
  buyerMails : List Mail
  adminMails : List Mail
deriving DecidableEq

/-- No side effects. -/
def emptyEffects : Effects := ⟨[], 0, [], []⟩

/-- The JSON response of the handler, reduced to the fields the
specification talks about: HTTP status, the status taxonomy string when one
is present, and the success flag. -/
structure WebResp where
  http : Nat
  status : Option String
  success : Bool
deriving DecidableEq

/-- Result of one delivery: response, dedupe state after, effects. -/
structure RunResult where
  resp : WebResp
  state : DedupeState
  eff : Effects

/-- sendMail from the source, reduced to its observable dispatch: the
message is handed to the transport only when email is enabled. -/
def mailsIf (enabled : Bool) (m : Mail) : List Mail :=
  if enabled then [m] else []

/-- The req.body || empty-object default of the handler. -/
def payloadOf (body : Json) : Json :=
  if jsTruthy body then body else .obj []

/-- The order key of a delivery: the extracted purchase-flow id when
truthy, else the synthesized unknown_ key from fresh entropy. -/
def orderKeyOf (body : Json) (entropy : String) : Json :=
  let payload := payloadOf body
  jsOr (extractPurchaseFlowId payload (extractOrderFromWixPayload payload))
    (.str ("unknown_" ++ entropy))

/-- The email value of the handler: extractEmailFromOrder(order) ||
payload.email || null. -/
def handlerEmail (payload order : Json) : Json :=
  jsOr (match extractEmailFromOrder order with
        | some s => .str s
        | none => .null)
    (jsOr (getJ payload "email") .null)

/-- The vin value of the handler: sanitizeVin(extracted || payload.vin ||
empty string). -/
def handlerVin (payload : Json) (vinFound : Option String) : String :=
  sanitizeVinJ
    (jsOr (match vinFound with
           | some s => .str s
           | none => .null)
      (jsOr (getJ payload "vin") (.str "")))

/-- The manual-check guard of the handler: email falsy, or vin empty, or
vin shorter than eight characters. -/
def needsManualCheck (email : Json) (vin : String) : Bool :=
  !jsTruthy email || vin = "" || vin.length < 8

/-- The operator alert of the manual-check path, with the size-capped
payload dump and the partial extraction result in its body. -/
def manualAlertMail (env : Env) (payload purchaseFlowId email : Json) (vin : String) : Mail :=
  ⟨env.adminEmail,
   "FZB-24 ALERT: Bestellung ohne VIN/Email (" ++ jsToString purchaseFlowId ++ ")",
   "Es kam ein Wix Payment-Webhook rein, aber VIN oder Email war leer/ungültig.\n\n" ++
   "purchaseFlowId: " ++ jsToString purchaseFlowId ++ "\n" ++
   "email: " ++ (if jsTruthy email then jsToString email else "—") ++ "\n" ++
   "vin: " ++ (if vin = "" then "—" else vin) ++ "\n\n" ++
   "Payload (gekürzt):\n" ++ safeJson payload 8000 ++ "\n"⟩

/-- The operator alert of the decode-failure path. -/
def vincarioAlertMail (env : Env) (purchaseFlowId email : Json) (vin error : String)
    (status : Nat) (raw : String) : Mail :=
  ⟨env.adminEmail,
   "FZB-24 ALERT: Vincario Fehler (" ++ jsToString purchaseFlowId ++ ")",
   "Vincario/Report build ist fehlgeschlagen.\n\n" ++
   "purchaseFlowId: " ++ jsToString purchaseFlowId ++ "\n" ++
   "email: " ++ jsToString email ++ "\n" ++
   "vin: " ++ vin ++ "\n\n" ++
   "Fehler: " ++ error ++ "\n" ++
   "Status: " ++ toString status ++ "\n" ++
   "Raw: " ++ (if raw = "" then "—" else raw) ++ "\n"⟩

/-- The operator notice of the pdf-disabled path. -/
def pdfDisabledMail (env : Env) (purchaseFlowId email : Json) (vin : String) : Mail :=
  ⟨env.adminEmail,
   "FZB-24 INFO: PDF_ENABLED=false (" ++ jsToString purchaseFlowId ++ ")",
   "PDF ist deaktiviert. Bestellung kann nicht ausgeliefert werden.\nVIN: " ++ vin ++
   "\nEmail: " ++ jsToString email ++ "\n"⟩

/-- The buyer message of the delivery path. -/
def buyerMail (email : Json) (vin : String) (report : Report) : Mail :=
  ⟨jsToString email,
   "Dein FZB-24 Fahrzeugbericht (" ++ vin ++ ")",
   "Hallo,\n\nanbei findest du deinen Fahrzeugbericht als PDF.\n\n" ++
   "VIN: " ++ vin ++ "\n" ++
   "Report-ID: " ++ report.report_id ++ "\n\n" ++
   "Hinweis: " ++ report.disclaimer ++ "\n\n" ++
   "Viele Grüße\nFZB-24"⟩

/-- The operator alert of the outermost catch (the stack text of the raised
error is abstracted). -/
def serverErrorMail (env : Env) : Mail :=
  ⟨env.adminEmail, "FZB-24 ALERT: Server Fehler bei order-from-wix", "Server error"⟩

/-- The order webhook handler from the source, as a pure function of the
environment, the clock, the entropy of the fallback order key, the request
and the dedupe state.  The external renderer and mailer are modelled as
always completing; the only raising step inside the try block is the
extractor on pathological payload shapes, which the outermost catch turns
into an operator alert and a 500 response. -/
def handleOrderFromWix (env : Env) (now : Nat) (entropy : String) (req : Req)
    (st : DedupeState) : RunResult :=
  if !checkWebhookAuth env req then
    ⟨⟨401, none, false⟩, st, emptyEffects⟩
  else
    let payload := payloadOf req.body
    let order := extractOrderFromWixPayload payload
    let purchaseFlowId := orderKeyOf req.body entropy
    let wp := wasProcessed st now purchaseFlowId
    if wp.1 then
      ⟨⟨200, some "duplicate_ignored", true⟩, wp.2, emptyEffects⟩
    else
      match extractVinFromOrder order with
      | .error _ =>
        ⟨⟨500, none, false⟩, wp.2, ⟨[], 0, [], mailsIf env.emailEnabled (serverErrorMail env)⟩⟩
      | .ok vinFound =>
        let email := handlerEmail payload order
        let vin := handlerVin payload vinFound
        if needsManualCheck email vin then
          ⟨⟨200, some "needs_manual_check", true⟩, markProcessed wp.2 now purchaseFlowId,
           ⟨[], 0, [],
            mailsIf env.emailEnabled (manualAlertMail env payload purchaseFlowId email vin)⟩⟩
        else
          match buildPremiumReport env now vin email with
          | (.failed err stat raw, calls) =>
            ⟨⟨502, none, false⟩, markProcessed wp.2 now purchaseFlowId,
             ⟨calls, 0, [],
              mailsIf env.emailEnabled
                (vincarioAlertMail env purchaseFlowId email vin err stat raw)⟩⟩
          | (.built report, calls) =>
            if !env.pdfEnabled then
              ⟨⟨200, some "pdf_disabled", true⟩, markProcessed wp.2 now purchaseFlowId,
               ⟨calls, 0, [],
                mailsIf env.emailEnabled (pdfDisabledMail env purchaseFlowId email vin)⟩⟩
            else
              ⟨⟨200, some "sent", true⟩, markProcessed wp.2 now purchaseFlowId,
               ⟨calls, 1, mailsIf env.emailEnabled (buyerMail email vin report), []⟩⟩

/-! ## Helper lemmas -/

theorem toUpper_of_isUpperAlnum (c : Char) (h : isUpperAlnum c = true) : c.toUpper = c := by
  simp [isUpperAlnum, Bool.and_eq_true, decide_eq_true_eq] at h
  have h2 : c.toNat ≤ 90 ∨ c.toNat ≤ 57 := by
    rcases h with ⟨_, h⟩ | ⟨_, h⟩
    · exact Or.inl h
    · exact Or.inr h
  simp [Char.toUpper]
  intro h97
  omega

/-- The VIN normalization step exactly as the specification words it:
uppercase the input, strip every character outside the class A-Z0-9,
truncate to 25 characters.  Stated separately from sanitizeVin so the
source function can be compared with the specification sentence. -/
def normalizeVinSpec (s : String) : String :=
  ⟨List.take 25 (List.filter
      (fun c => decide (('A' ≤ c ∧ c ≤ 'Z') ∨ ('0' ≤ c ∧ c ≤ '9')))
      (List.map Char.toUpper s.data))⟩

theorem keepPred_eq (c : Char) :
    decide (('A' ≤ c ∧ c ≤ 'Z') ∨ ('0' ≤ c ∧ c ≤ '9')) = isUpperAlnum c := by
  simp only [isUpperAlnum, Bool.decide_or, Bool.decide_and]

/-! ## C9 and C10: VIN normalization -/

/-- C9: normalizeVin (sanitizeVin in the canonical source file) is total on
strings, agrees with the specification sentence — uppercase, strip every
character outside A-Z0-9, truncate to at most 25 characters — its output
length is at most 25, every output character lies in A-Z0-9, and the empty
input yields the empty string.  (Totality on every JSON value is the
sanitizeVinJ wrapper, which first applies the String(v or empty) coercion
and therefore also never raises.) -/
theorem normalizeVin_contract (s : String) :
    sanitizeVin s = normalizeVinSpec s ∧
    (sanitizeVin s).length ≤ 25 ∧
    (∀ c ∈ (sanitizeVin s).data, isUpperAlnum c = true) ∧
    sanitizeVin "" = "" ∧
    ∀ j : Json, sanitizeVinJ j = sanitizeVin (jsToStrFalsy j) := by
  refine ⟨?_, ?_, ?_, rfl, fun _ => rfl⟩
  · have hfun : (fun c => decide (('A' ≤ c ∧ c ≤ 'Z') ∨ ('0' ≤ c ∧ c ≤ '9'))) = isUpperAlnum :=
      funext keepPred_eq
    rw [normalizeVinSpec, hfun]
    rfl
  · show (((s.data.map Char.toUpper).filter isUpperAlnum).take 25).length ≤ 25
    simp
  · intro c hc
    exact List.of_mem_filter (List.mem_of_mem_take hc)

/-- C9 witness. -/
theorem normalizeVin_contract_witness :
    (sanitizeVin "wba-3t7 c50!ep" = normalizeVinSpec "wba-3t7 c50!ep") ∧
    (sanitizeVin "wba-3t7 c50!ep").length ≤ 25 ∧
    sanitizeVin "" = "" := by
  have h := normalizeVin_contract "wba-3t7 c50!ep"
  exact ⟨h.1, h.2.1, h.2.2.2.1⟩

/-- C10: normalizeVin is idempotent. -/
theorem normalizeVin_idempotent (x : String) :
    sanitizeVin (sanitizeVin x) = sanitizeVin x := by
  have hmem : ∀ c ∈ ((x.data.map Char.toUpper).filter isUpperAlnum).take 25,
      isUpperAlnum c = true :=
    fun c hc => List.of_mem_filter (List.mem_of_mem_take hc)
  show sanitizeVin ⟨((x.data.map Char.toUpper).filter isUpperAlnum).take 25⟩ = _
  simp only [sanitizeVin]
  congr 1
  have hmap : (((x.data.map Char.toUpper).filter isUpperAlnum).take 25).map Char.toUpper =
      ((x.data.map Char.toUpper).filter isUpperAlnum).take 25 := by
    rw [List.map_congr_left (fun c hc => toUpper_of_isUpperAlnum c (hmem c hc))]
    exact List.map_id _
  rw [hmap, List.filter_eq_self.mpr hmem]
  exact List.take_of_length_le (List.length_take_le 25 _)

/-! ## C3: looksLikeVin -/

theorem vinShape_false_of_hasIOQ (t : String) (h : hasIOQ t = true) :
    vinShape t = false := by
  simp only [hasIOQ, List.any_eq_true] at h
  obtain ⟨c, hc, hioq⟩ := h
  have hall : t.data.all vinChar = false := by
    rw [← Bool.not_eq_true, List.all_eq_true]
    intro hall
    have hvc := hall c hc
    simp only [Bool.or_eq_true, decide_eq_true_eq] at hioq
    rcases hioq with (h | h) | h <;> rw [h] at hvc <;> exact absurd hvc (by decide)
  simp [vinShape, hall]

theorem mem_dropWhile_of_mem {p : Char → Bool} {l : List Char} {c : Char}
    (h : c ∈ l) (hp : p c = false) : c ∈ l.dropWhile p := by
  induction l with
  | nil => cases h
  | cons a t ih =>
    by_cases ha : p a = true
    · rw [List.dropWhile_cons_of_pos ha]
      rcases List.mem_cons.mp h with rfl | hmem
      · rw [hp] at ha; cases ha
      · exact ih hmem
    · rw [List.dropWhile_cons_of_neg ha]
      exact h

theorem mem_jsTrim_of_mem {s : String} {c : Char}
    (h : c ∈ s.data) (hp : isJsWs c = false) : c ∈ (jsTrim s).data := by
  have h1 : c ∈ s.data.dropWhile isJsWs := mem_dropWhile_of_mem h hp
  have h2 : c ∈ (s.data.dropWhile isJsWs).reverse := List.mem_reverse.mpr h1
  have h3 : c ∈ (s.data.dropWhile isJsWs).reverse.dropWhile isJsWs :=
    mem_dropWhile_of_mem h2 hp
  exact List.mem_reverse.mpr h3

/-- C3 counterexample: the claimed equivalence fails in the right-to-left
direction.  The input has a normalized form (under either reading: the
normalizeVin function, or the trim-and-uppercase step of looksLikeVin
itself) of length in the range 11 to 25 with none of the letters I, O, Q,
yet looksLikeVin rejects it because of the inner space. -/
theorem looksLikeVin_iff_cex :
    looksLikeVin "ABC DEF12345" = false ∧
    (sanitizeVin "ABC DEF12345").length = 11 ∧
    hasIOQ (sanitizeVin "ABC DEF12345") = false ∧
    (toUpperStr (jsTrim "ABC DEF12345")).length = 12 ∧
    hasIOQ (toUpperStr (jsTrim "ABC DEF12345")) = false := by
  refine ⟨by decide, by decide, by decide, by decide, by decide⟩

/-- C3 amended: looksLikeVin accepts exactly the nonempty strings whose
trimmed uppercased form matches the 11-25 VIN shape, that is, has length
in the range 11 to 25 and consists only of characters from the class
A-HJ-NPR-Z0-9 (so the stated length and I/O/Q conditions must be joined by
the full character-class membership, and the normalization that removes
characters is not applied); in particular every string containing one of
the letters I, O, Q in either case is rejected, independent of length. -/
theorem looksLikeVin_amended :
    (∀ s : String, looksLikeVin s =
      if s = "" then false else vinShape (toUpperStr (jsTrim s))) ∧
    (∀ s : String,
      (∃ c ∈ s.data, c.toUpper = 'I' ∨ c.toUpper = 'O' ∨ c.toUpper = 'Q') →
      looksLikeVin s = false) := by
  constructor
  · intro s
    by_cases hs : s = ""
    · simp [looksLikeVin, hs]
    · by_cases hioq : hasIOQ (toUpperStr (jsTrim s)) = true
      · simp [looksLikeVin, hs, hioq, (vinShape_false_of_hasIOQ _ hioq).symm]
      · have h2 : hasIOQ (toUpperStr (jsTrim s)) = false := by
          rw [← Bool.not_eq_true]; exact hioq
        simp [looksLikeVin, hs, h2]
  · intro s h
    obtain ⟨c, hc, hioq⟩ := h
    have hs : s ≠ "" := by
      intro hs
      subst hs
      cases hc
    have hws : isJsWs c = false := by
      by_contra hw
      rw [Bool.not_eq_false] at hw
      simp only [isJsWs, Bool.or_eq_true, decide_eq_true_eq] at hw
      rcases hw with ((((((h1 | h1) | h1) | h1) | h1) | h1) | h1) <;> rw [h1] at hioq <;>
        rcases hioq with h2 | h2 | h2 <;> exact absurd h2 (by decide)
    have hmem : c ∈ (jsTrim s).data := mem_jsTrim_of_mem hc hws
    have hmem2 : c.toUpper ∈ (toUpperStr (jsTrim s)).data :=
      List.mem_map_of_mem Char.toUpper hmem
    have hioq2 : hasIOQ (toUpperStr (jsTrim s)) = true := by
      simp only [hasIOQ, List.any_eq_true]
      refine ⟨c.toUpper, hmem2, ?_⟩
      rcases hioq with h | h | h <;> simp [h]
    simp [looksLikeVin, hs, hioq2]

/-- C3 witness: the amended characterization applied to concrete accepted
and rejected inputs, and the exclusion part applied to a lowercase q. -/
theorem looksLikeVin_amended_witness :
    looksLikeVin "WAUZZZ8K9BA123456" =
      (if ("WAUZZZ8K9BA123456" : String) = "" then false
       else vinShape (toUpperStr (jsTrim "WAUZZZ8K9BA123456"))) ∧
    looksLikeVin "wqertz123456" = false := by
  refine ⟨looksLikeVin_amended.1 "WAUZZZ8K9BA123456", ?_⟩
  exact looksLikeVin_amended.2 "wqertz123456" ⟨'q', by decide, by decide⟩

/-! ## C1: key-hint precedence in the VIN extractor -/

/-- Order payload in which a VIN-shaped value under a non-hinted key
precedes a VIN under a hinted key in the user-fields object. -/
def hintShadowOrder : Json :=
  .obj [("extendedFields", .obj [("namespaces", .obj [("_user_fields",
    .obj [("tracking", .str "ABCDEFGH1234567"),
          ("fin", .str "WAUZZZ8K9BA123456")])])])]

/-- C1 counterexample: the payload carries the VIN WAUZZZ8K9BA123456 under
the hinted key fin, yet the extractor returns the VIN-shaped tracking code
stored earlier under the non-hinted key tracking; key-hinted matches do not
take precedence over value-shape matches that occur earlier in entry
order. -/
theorem extractVin_hint_precedence_cex :
    extractVinFromOrder hintShadowOrder = .ok (some "ABCDEFGH1234567") ∧
    Json.get (getPath hintShadowOrder ["extendedFields", "namespaces", "_user_fields"]) "fin"
      = some (.str "WAUZZZ8K9BA123456") ∧
    vinKeyHints.any (fun h => strContains (toLowerStr "fin") h) = true ∧
    looksLikeVin "WAUZZZ8K9BA123456" = true ∧
    vinKeyHints.any (fun h => strContains (toLowerStr "tracking") h) = false ∧
    ("ABCDEFGH1234567" : String) ≠ "WAUZZZ8K9BA123456" := by
  refine ⟨rfl, by decide, by decide, by decide, by decide, by decide⟩

/-- Whether one user-fields entry makes the user-fields scan stop: its
value is nonempty after trim, and its key is hinted or its value is
VIN-shaped. -/
def entryFires (k : String) (v : Json) : Bool :=
  if jsTrim (jsToStrFalsy v) = "" then false
  else vinKeyHints.any (fun h => strContains (toLowerStr k) h) ||
    vinShapeCI (jsTrim (jsToStrFalsy v))

theorem scanUserFields_skip (pre rest : List (String × Json))
    (hpre : ∀ p ∈ pre, entryFires p.1 p.2 = false) :
    scanUserFields (pre ++ rest) = scanUserFields rest := by
  induction pre with
  | nil => rfl
  | cons hd t ih =>
    obtain ⟨k, v⟩ := hd
    have hfire := hpre (k, v) (List.mem_cons_self _ _)
    simp only [entryFires] at hfire
    have ht : ∀ p ∈ t, entryFires p.1 p.2 = false :=
      fun p hp => hpre p (List.mem_cons_of_mem _ hp)
    by_cases hval : jsTrim (jsToStrFalsy v) = ""
    · simp only [List.cons_append, scanUserFields, hval, if_pos]
      exact ih ht
    · rw [if_neg hval] at hfire
      have hhint : vinKeyHints.any (fun h => strContains (toLowerStr k) h) = false :=
        (Bool.or_eq_false_iff.mp hfire).1
      have hshape : vinShapeCI (jsTrim (jsToStrFalsy v)) = false :=
        (Bool.or_eq_false_iff.mp hfire).2
      simp only [List.cons_append, scanUserFields, hval, hhint, hshape,
        if_neg, if_false, Bool.false_eq_true]
      exact ih ht

/-- C1 amended: the extractor returns the sanitized value of the first
user-fields entry, in object entry order, whose trimmed value is nonempty
and whose key contains a hint fragment or whose value is VIN-shaped.  A VIN
under a hinted key is therefore returned exactly when no earlier entry
fires — key hints take precedence only within a single entry, not over
VIN-shaped values of earlier entries (see the counterexample). -/
theorem extractVin_hinted_first_entry
    (pre post : List (String × Json)) (k : String) (v : Json)
    (hpre : ∀ p ∈ pre, entryFires p.1 p.2 = false)
    (hk : vinKeyHints.any (fun h => strContains (toLowerStr k) h) = true)
    (hv : jsTrim (jsToStrFalsy v) ≠ "") :
    extractVinFromOrder
      (.obj [("extendedFields", .obj [("namespaces",
        .obj [("_user_fields", .obj (pre ++ (k, v) :: post))])])]) =
      .ok (some (sanitizeVin (jsTrim (jsToStrFalsy v)))) := by
  have hscan : scanUserFields (pre ++ (k, v) :: post) =
      some (sanitizeVin (jsTrim (jsToStrFalsy v))) := by
    rw [scanUserFields_skip pre _ hpre]
    simp only [scanUserFields, hv, hk, if_neg, if_true, if_false]
  simp only [extractVinFromOrder, getPath, getJ, Json.get, lookupField, List.foldl,
    jsTruthy, jsOr, jsEntries, Option.getD, Bool.not_true, Bool.false_eq_true,
    if_false, reduceIte, hscan]

/-- C1 witness: the amended rule applied to a concrete payload whose first
firing entry is the hinted fin field (the entry before it has neither a
hinted key nor a VIN-shaped value). -/
theorem extractVin_hinted_first_entry_witness :
    extractVinFromOrder
      (.obj [("extendedFields", .obj [("namespaces",
        .obj [("_user_fields", .obj [("note", .str "hello"),
          ("fin", .str " WAUZZZ8K9BA123456 "), ("other", .str "x")])])])]) =
      .ok (some "WAUZZZ8K9BA123456") := by
  have h := extractVin_hinted_first_entry [("note", .str "hello")] [("other", .str "x")]
      "fin" (.str " WAUZZZ8K9BA123456 ") (by decide) (by decide) (by decide)
  exact h.trans (congrArg (fun s => Except.ok (some s)) (by decide))

/-! ## C4: internal fields stripped from the embedded decode payload -/

/-- The decode body of the C4 counterexample: internal fields at the top
level and nested one level down. -/
def nestedBalanceDecodeJson : Json :=
  .obj [("decode", .arr [.obj [("label", .str "Make"), ("value", .str "BMW")]]),
        ("balance", .num 99),
        ("info", .obj [("price", .num 10), ("balance", .num 5)])]

/-- Concrete environment whose decode oracle returns a body with nested
internal fields. -/
def nestedBalanceEnv : Env :=
  ⟨"", "admin@example.com", true, true, fun _ _ => ⟨true, 200, nestedBalanceDecodeJson, ""⟩⟩

/-- The embedded raw decode payload of a built report, when the build
succeeded. -/
def builtRaw : BuildOut → Option Json
  | .built r => some r.vin_decode_raw
  | .failed _ _ _ => none

/-- C4 counterexample: stripInternalFields removes only top-level fields,
so a report assembled from a decode body with a nested balance or price
field still contains those field names inside its embedded raw payload. -/
theorem report_strip_deep_cex :
    (match builtRaw (buildPremiumReport nestedBalanceEnv 0 "WAUZZZ8K9BA123456" .null).1 with
     | some raw => containsKeyDeep raw "balance" && containsKeyDeep raw "price"
     | none => false) = true := by
  decide

theorem lookupField_filter_out (fs : List (String × Json)) (name : String)
    (p : String × Json → Bool) (hp : ∀ kv, kv.1 = name → p kv = false) :
    lookupField (fs.filter p) name = none := by
  induction fs with
  | nil => rfl
  | cons kv t ih =>
    rw [List.filter_cons]
    by_cases hk : p kv = true
    · rw [if_pos hk]
      simp only [lookupField]
      have hne : kv.1 ≠ name := fun he => by rw [hp kv he] at hk; cases hk
      rw [if_neg hne]
      exact ih
    · rw [if_neg hk]
      exact ih

theorem get_stripInternalFields (j : Json) (name : String)
    (hname : name ∈ internalFieldNames) :
    Json.get (stripInternalFields j) name = none := by
  cases j with
  | obj fs =>
    simp only [stripInternalFields, Json.get]
    refine lookupField_filter_out fs name _ ?_
    intro kv he
    rw [he]
    fin_cases hname <;> decide
  | null => rfl
  | bool b => rfl
  | num n => rfl
  | str s => rfl
  | arr xs => rfl

/-- C4 amended: report assembly embeds the decode body with the fields
balance, price and price_currency deleted from its top level (deeper
occurrences are not visited, see the counterexample), so the top level of
the embedded payload of every successfully built report carries none of
the three internal field names. -/
theorem report_strip_top_level (env : Env) (now : Nat) (vin : String) (email : Json)
    (hdec : decodeOk env vin = true) :
    builtRaw (buildPremiumReport env now vin email).1 =
      some (stripInternalFields (vincarioGet env vin "decode").json) ∧
    ∀ name ∈ internalFieldNames, ∀ raw,
      builtRaw (buildPremiumReport env now vin email).1 = some raw →
      Json.get raw name = none := by
  simp only [decodeOk, Bool.and_eq_true] at hdec
  have hbuild : builtRaw (buildPremiumReport env now vin email).1 =
      some (stripInternalFields (vincarioGet env vin "decode").json) := by
    simp only [buildPremiumReport]
    rw [hdec.1, hdec.2]
    rfl
  refine ⟨hbuild, ?_⟩
  intro name hname raw hraw
  rw [hbuild] at hraw
  injection hraw with hraw
  subst hraw
  exact get_stripInternalFields _ name hname

/-- C4 witness: the amended postcondition applied to the concrete
environment of the counterexample. -/
theorem report_strip_top_level_witness :
    builtRaw (buildPremiumReport nestedBalanceEnv 0 "WAUZZZ8K9BA123456" .null).1 =
      some (stripInternalFields (vincarioGet nestedBalanceEnv "WAUZZZ8K9BA123456" "decode").json) ∧
    ∀ raw, builtRaw (buildPremiumReport nestedBalanceEnv 0 "WAUZZZ8K9BA123456" .null).1 = some raw →
      Json.get raw "balance" = none := by
  have h := report_strip_top_level nestedBalanceEnv 0 "WAUZZZ8K9BA123456" .null (by decide)
  exact ⟨h.1, h.2 "balance" (by decide)⟩

/-! ## C7: report id determinism -/

/-- The report id of a build result, when the build succeeded. -/
def reportIdOf : BuildOut → Option String
  | .built r => some r.report_id
  | .failed _ _ _ => none

theorem makeReportId_day (n n2 : Nat) (v : String) (h : isoDay n = isoDay n2) :
    makeReportId n v = makeReportId n2 v := by
  simp [makeReportId, h]

/-- Environment with a minimal always-successful decode oracle. -/
def plainDecodeEnv : Env :=
  ⟨"", "admin@example.com", true, true, fun _ _ => ⟨true, 200, .obj [("decode", .arr [])], "ok"⟩⟩

/-- C7: the report id is a deterministic pure function of the sanitized VIN
and the calendar day — two report assemblies with the same VIN on the same
calendar day produce the same report id, whatever the environment, the
exact times within the day, or the buyer email, and that id is the
makeReportId hash of the sanitized VIN and the day. -/
theorem report_id_deterministic (env env2 : Env) (now now2 : Nat) (vin : String)
    (email email2 : Json)
    (h1 : decodeOk env vin = true) (h2 : decodeOk env2 vin = true)
    (hday : isoDay now = isoDay now2) :
    reportIdOf (buildPremiumReport env now vin email).1 =
      reportIdOf (buildPremiumReport env2 now2 vin email2).1 ∧
    reportIdOf (buildPremiumReport env now vin email).1 =
      some (makeReportId now (sanitizeVin vin)) := by
  simp only [decodeOk, Bool.and_eq_true] at h1 h2
  have e1 : reportIdOf (buildPremiumReport env now vin email).1 =
      some (makeReportId now (sanitizeVin vin)) := by
    simp only [buildPremiumReport]
    rw [h1.1, h1.2]
    rfl
  have e2 : reportIdOf (buildPremiumReport env2 now2 vin email2).1 =
      some (makeReportId now2 (sanitizeVin vin)) := by
    simp only [buildPremiumReport]
    rw [h2.1, h2.2]
    rfl
  refine ⟨?_, e1⟩
  rw [e1, e2, makeReportId_day now now2 _ hday]

/-- C7 witness: two builds one hour apart on the same calendar day agree on
the report id. -/
theorem report_id_deterministic_witness :
    reportIdOf (buildPremiumReport plainDecodeEnv 0 "WAUZZZ8K9BA123456" .null).1 =
      reportIdOf (buildPremiumReport plainDecodeEnv 3600000 "WAUZZZ8K9BA123456" (.str "x@y.de")).1 :=
  (report_id_deterministic plainDecodeEnv plainDecodeEnv 0 3600000 "WAUZZZ8K9BA123456"
    .null (.str "x@y.de") (by decide) (by decide) (by decide)).1

/-! ## C8: dedupe store semantics -/

theorem dedupeSet_cons_eq (k : Json) (v v2 : Nat) (t : DedupeState) :
    dedupeSet ((k, v2) :: t) k v = (k, v) :: t := by
  simp [dedupeSet]

theorem dedupeSet_cons_ne {k2 k : Json} (v v2 : Nat) (t : DedupeState) (h : k2 ≠ k) :
    dedupeSet ((k2, v2) :: t) k v = (k2, v2) :: dedupeSet t k v := by
  simp [dedupeSet, h]

theorem dedupeLookup_cons_eq (k : Json) (v : Nat) (t : DedupeState) :
    dedupeLookup ((k, v) :: t) k = some v := by
  simp [dedupeLookup]

theorem dedupeLookup_cons_ne {k2 k : Json} (v : Nat) (t : DedupeState) (h : k2 ≠ k) :
    dedupeLookup ((k2, v) :: t) k = dedupeLookup t k := by
  simp [dedupeLookup, h]

theorem dedupeDelete_cons_eq (k : Json) (v : Nat) (t : DedupeState) :
    dedupeDelete ((k, v) :: t) k = t := by
  simp [dedupeDelete]

theorem dedupeDelete_cons_ne {k2 k : Json} (v : Nat) (t : DedupeState) (h : k2 ≠ k) :
    dedupeDelete ((k2, v) :: t) k = (k2, v) :: dedupeDelete t k := by
  simp [dedupeDelete, h]

theorem dedupeLookup_set_self (st : DedupeState) (k : Json) (v : Nat) :
    dedupeLookup (dedupeSet st k v) k = some v := by
  induction st with
  | nil => simp [dedupeSet, dedupeLookup]
  | cons hd t ih =>
    obtain ⟨k2, v2⟩ := hd
    by_cases hk : k2 = k
    · subst hk
      rw [dedupeSet_cons_eq, dedupeLookup_cons_eq]
    · rw [dedupeSet_cons_ne _ _ _ hk, dedupeLookup_cons_ne _ _ hk]
      exact ih

theorem mem_keys_dedupeSet {st : DedupeState} {k : Json} {v : Nat} {x : Json}
    (h : x ∈ (dedupeSet st k v).map Prod.fst) : x ∈ st.map Prod.fst ∨ x = k := by
  induction st with
  | nil =>
    simp only [dedupeSet, List.map_cons, List.map_nil, List.mem_singleton] at h
    exact Or.inr h
  | cons hd t ih =>
    obtain ⟨k2, v2⟩ := hd
    by_cases hk : k2 = k
    · subst hk
      rw [dedupeSet_cons_eq] at h
      simp only [List.map_cons, List.mem_cons] at h ⊢
      rcases h with h | h
      · exact Or.inr h
      · exact Or.inl (Or.inr h)
    · rw [dedupeSet_cons_ne _ _ _ hk] at h
      simp only [List.map_cons, List.mem_cons] at h ⊢
      rcases h with h | h
      · exact Or.inl (Or.inl h)
      · rcases ih h with h2 | h2
        · exact Or.inl (Or.inr h2)
        · exact Or.inr h2

theorem nodup_keys_dedupeSet {st : DedupeState} (k : Json) (v : Nat)
    (h : (st.map Prod.fst).Nodup) : ((dedupeSet st k v).map Prod.fst).Nodup := by
  induction st with
  | nil => simp [dedupeSet]
  | cons hd t ih =>
    obtain ⟨k2, v2⟩ := hd
    simp only [List.map_cons, List.nodup_cons] at h
    by_cases hk : k2 = k
    · subst hk
      rw [dedupeSet_cons_eq]
      simp only [List.map_cons, List.nodup_cons]
      exact h
    · rw [dedupeSet_cons_ne _ _ _ hk]
      simp only [List.map_cons, List.nodup_cons]
      refine ⟨?_, ih h.2⟩
      intro hx
      rcases mem_keys_dedupeSet hx with h2 | h2
      · exact h.1 h2
      · exact hk h2

theorem dedupeLookup_eq_none_of_not_mem {st : DedupeState} {k : Json}
    (h : k ∉ st.map Prod.fst) : dedupeLookup st k = none := by
  induction st with
  | nil => rfl
  | cons hd t ih =>
    obtain ⟨k2, v2⟩ := hd
    simp only [List.map_cons, List.mem_cons, not_or] at h
    rw [dedupeLookup_cons_ne _ _ (fun he => h.1 he.symm)]
    exact ih h.2

theorem dedupeLookup_delete_self {st : DedupeState} (k : Json)
    (h : (st.map Prod.fst).Nodup) : dedupeLookup (dedupeDelete st k) k = none := by
  induction st with
  | nil => rfl
  | cons hd t ih =>
    obtain ⟨k2, v2⟩ := hd
    simp only [List.map_cons, List.nodup_cons] at h
    by_cases hk : k2 = k
    · subst hk
      rw [dedupeDelete_cons_eq]
      exact dedupeLookup_eq_none_of_not_mem h.1
    · rw [dedupeDelete_cons_ne _ _ hk, dedupeLookup_cons_ne _ _ hk]
      exact ih h.2

/-- C8: over any map with distinct keys (the invariant of the Map object
the source uses), a key marked at time t is reported processed at time now
exactly when now is at most t plus the six-hour TTL; once the TTL has
elapsed the observation deletes the entry, so the key is absent afterwards;
and an unmarked key is reported unprocessed with the map untouched. -/
theorem dedupe_ttl_semantics (st : DedupeState) (t now : Nat) (key : Json)
    (hnodup : (st.map Prod.fst).Nodup) :
    ((wasProcessed (markProcessed st t key) now key).1 =
      decide (now ≤ t + DEDUPE_TTL_MS)) ∧
    (now > t + DEDUPE_TTL_MS →
      dedupeLookup (wasProcessed (markProcessed st t key) now key).2 key = none) ∧
    (dedupeLookup st key = none → wasProcessed st now key = (false, st)) ∧
    DEDUPE_TTL_MS = 6 * 60 * 60 * 1000 := by
  have hlook : dedupeLookup (markProcessed st t key) key = some (t + DEDUPE_TTL_MS) :=
    dedupeLookup_set_self st key _
  have hexp : ¬(t + DEDUPE_TTL_MS = 0) := by
    simp only [DEDUPE_TTL_MS]
    omega
  refine ⟨?_, ?_, ?_, rfl⟩
  · simp only [wasProcessed, hlook, if_neg hexp]
    by_cases hle : now ≤ t + DEDUPE_TTL_MS
    · rw [if_neg (by omega), decide_eq_true hle]
    · rw [if_pos (by omega), decide_eq_false hle]
  · intro hgt
    simp only [wasProcessed, hlook, if_neg hexp, if_pos hgt]
    exact dedupeLookup_delete_self key (nodup_keys_dedupeSet key _ hnodup)
  · intro hnone
    simp [wasProcessed, hnone]

/-- C8 witness: a key marked at time zero is still processed exactly at the
TTL boundary, is treated as new one millisecond later, and the expired
entry is gone from the store at that observation. -/
theorem dedupe_ttl_semantics_witness :
    (wasProcessed (markProcessed [] 0 (.str "k")) DEDUPE_TTL_MS (.str "k")).1 = true ∧
    (wasProcessed (markProcessed [] 0 (.str "k")) (DEDUPE_TTL_MS + 1) (.str "k")).1 = false ∧
    dedupeLookup (wasProcessed (markProcessed [] 0 (.str "k")) (DEDUPE_TTL_MS + 1) (.str "k")).2
      (.str "k") = none := by
  have h1 := dedupe_ttl_semantics [] 0 DEDUPE_TTL_MS (.str "k") (by simp)
  have h2 := dedupe_ttl_semantics [] 0 (DEDUPE_TTL_MS + 1) (.str "k") (by simp)
  refine ⟨?_, ?_, h2.2.1 (by omega)⟩
  · rw [h1.1]
    simp
  · rw [h2.1]
    simp [DEDUPE_TTL_MS]

/-! ## C6: webhook authentication -/

theorem getD_ne_of_ne_some (o : Option String) (sec : String)
    (hne : o ≠ some sec) (hsec : sec ≠ "") : o.getD "" ≠ sec := by
  cases o with
  | none => simpa using fun he => hsec he.symm
  | some x => simpa using fun he => hne (by rw [he])

/-- C6: when a shared secret is configured, every request that supplies the
exact secret neither in the x-webhook-secret header nor in the secret query
parameter is answered 401 with no side effects — no dedupe mutation, no
external call, no alert, no mail of any kind; when no shared secret is
configured, the auth check passes for every request. -/
theorem webhook_auth_semantics :
    (∀ (env : Env) (now : Nat) (e : String) (req : Req) (st : DedupeState),
      env.webhookSecret ≠ "" →
      req.headerSecret ≠ some env.webhookSecret →
      req.querySecret ≠ some env.webhookSecret →
      handleOrderFromWix env now e req st = ⟨⟨401, none, false⟩, st, emptyEffects⟩) ∧
    (∀ (env : Env) (req : Req), env.webhookSecret = "" → checkWebhookAuth env req = true) := by
  constructor
  · intro env now e req st hsec hh hq
    have hinc : getIncomingSecret req ≠ env.webhookSecret := by
      simp only [getIncomingSecret]
      split_ifs with h1 h2
      · exact getD_ne_of_ne_some _ _ hh hsec
      · exact getD_ne_of_ne_some _ _ hq hsec
      · exact fun he => hsec he.symm
    have hauth : checkWebhookAuth env req = false := by
      simp only [checkWebhookAuth, if_neg hsec]
      exact beq_eq_false_iff_ne.mpr hinc
    simp [handleOrderFromWix, hauth]
  · intro env req h
    simp [checkWebhookAuth, h]

/-- C6 witness: a concrete configured-secret deployment answering a
wrong-secret request with 401 and no effects, and a concrete
no-secret deployment accepting an arbitrary request. -/
theorem webhook_auth_semantics_witness :
    handleOrderFromWix ⟨"sek", "admin@example.com", true, true,
        fun _ _ => ⟨true, 200, .obj [("decode", .arr [])], "ok"⟩⟩ 0 "aa"
        ⟨some "wrong", none, .obj []⟩ [] =
      ⟨⟨401, none, false⟩, [], emptyEffects⟩ ∧
    checkWebhookAuth plainDecodeEnv ⟨none, none, .obj []⟩ = true := by
  constructor
  · exact webhook_auth_semantics.1 _ 0 "aa" _ [] (by decide) (by decide) (by decide)
  · exact webhook_auth_semantics.2 plainDecodeEnv _ rfl

/-! ## C5: the manual-review escalation path -/

theorem listStarts_append (b c : List Char) : listStarts b (b ++ c) = true := by
  induction b with
  | nil => rfl
  | cons a t ih => simp [listStarts, ih]

theorem listContains_nil_needle (l : List Char) : listContains l [] = true := by
  cases l <;> simp [listContains, listStarts, List.isEmpty]

theorem listContains_append (a b c : List Char) : listContains (a ++ b ++ c) b = true := by
  induction a with
  | nil =>
    simp only [List.nil_append]
    cases b with
    | nil => exact listContains_nil_needle c
    | cons x t =>
      simp only [List.cons_append, listContains]
      have hs : listStarts (x :: t) ((x :: t) ++ c) = true := listStarts_append (x :: t) c
      simp only [List.cons_append] at hs
      simp [hs]
  | cons x t ih =>
    simp only [List.cons_append, listContains, Bool.or_eq_true]
    exact Or.inr ih

theorem strContains_append (a b c : String) : strContains (a ++ b ++ c) b = true := by
  simp only [strContains, String.data_append]
  exact listContains_append a.data b.data c.data

theorem strContains_of_decomp {s b : String} (a c : String) (h : s = a ++ b ++ c) :
    strContains s b = true := by
  rw [h]
  exact strContains_append a b c

/-- C5: an authenticated, non-duplicate delivery whose extraction leaves
the email falsy or the VIN empty or shorter than eight characters marks the
order key processed for the TTL window, dispatches exactly one operator
alert — to the admin mailbox, containing the size-capped payload dump and
the partial extraction result — sends no buyer mail, performs no external
call and no render, and answers 200 with the needs_manual_check outcome. -/
theorem manual_check_path (env : Env) (now : Nat) (e : String) (req : Req)
    (st : DedupeState) (vf : Option String)
    (hauth : checkWebhookAuth env req = true)
    (hmail : env.emailEnabled = true)
    (hdup : (wasProcessed st now (orderKeyOf req.body e)).1 = false)
    (hex : extractVinFromOrder (extractOrderFromWixPayload (payloadOf req.body)) = .ok vf)
    (hman : needsManualCheck
      (handlerEmail (payloadOf req.body) (extractOrderFromWixPayload (payloadOf req.body)))
      (handlerVin (payloadOf req.body) vf) = true) :
    (handleOrderFromWix env now e req st).resp = ⟨200, some "needs_manual_check", true⟩ ∧
    (handleOrderFromWix env now e req st).state =
      markProcessed (wasProcessed st now (orderKeyOf req.body e)).2 now (orderKeyOf req.body e) ∧
    dedupeLookup (handleOrderFromWix env now e req st).state (orderKeyOf req.body e) =
      some (now + DEDUPE_TTL_MS) ∧
    (handleOrderFromWix env now e req st).eff.buyerMails = [] ∧
    (handleOrderFromWix env now e req st).eff.vincarioCalls = [] ∧
    (handleOrderFromWix env now e req st).eff.pdfRenders = 0 ∧
    (handleOrderFromWix env now e req st).eff.adminMails =
      [manualAlertMail env (payloadOf req.body) (orderKeyOf req.body e)
        (handlerEmail (payloadOf req.body) (extractOrderFromWixPayload (payloadOf req.body)))
        (handlerVin (payloadOf req.body) vf)] ∧
    (manualAlertMail env (payloadOf req.body) (orderKeyOf req.body e)
        (handlerEmail (payloadOf req.body) (extractOrderFromWixPayload (payloadOf req.body)))
        (handlerVin (payloadOf req.body) vf)).recipient = env.adminEmail ∧
    strContains (manualAlertMail env (payloadOf req.body) (orderKeyOf req.body e)
        (handlerEmail (payloadOf req.body) (extractOrderFromWixPayload (payloadOf req.body)))
        (handlerVin (payloadOf req.body) vf)).text
      (safeJson (payloadOf req.body) 8000) = true ∧
    strContains (manualAlertMail env (payloadOf req.body) (orderKeyOf req.body e)
        (handlerEmail (payloadOf req.body) (extractOrderFromWixPayload (payloadOf req.body)))
        (handlerVin (payloadOf req.body) vf)).text
      (if handlerVin (payloadOf req.body) vf = "" then "—"
       else handlerVin (payloadOf req.body) vf) = true ∧
    strContains (manualAlertMail env (payloadOf req.body) (orderKeyOf req.body e)
        (handlerEmail (payloadOf req.body) (extractOrderFromWixPayload (payloadOf req.body)))
        (handlerVin (payloadOf req.body) vf)).text
      (if jsTruthy (handlerEmail (payloadOf req.body)
          (extractOrderFromWixPayload (payloadOf req.body))) then
        jsToString (handlerEmail (payloadOf req.body)
          (extractOrderFromWixPayload (payloadOf req.body)))
       else "—") = true := by
  have hrun : handleOrderFromWix env now e req st =
      ⟨⟨200, some "needs_manual_check", true⟩,
       markProcessed (wasProcessed st now (orderKeyOf req.body e)).2 now (orderKeyOf req.body e),
       ⟨[], 0, [],
        [manualAlertMail env (payloadOf req.body) (orderKeyOf req.body e)
          (handlerEmail (payloadOf req.body) (extractOrderFromWixPayload (payloadOf req.body)))
          (handlerVin (payloadOf req.body) vf)]⟩⟩ := by
    simp only [handleOrderFromWix, hauth, Bool.not_true, Bool.false_eq_true, if_false,
      hdup, hex, hman, hmail, mailsIf, if_true, reduceIte]
  refine ⟨by rw [hrun], by rw [hrun], ?_, by rw [hrun], by rw [hrun], by rw [hrun],
    by rw [hrun], rfl, ?_, ?_, ?_⟩
  · rw [hrun]
    exact dedupeLookup_set_self _ _ _
  · exact strContains_of_decomp _ "\n" rfl
  · refine strContains_of_decomp
      ("Es kam ein Wix Payment-Webhook rein, aber VIN oder Email war leer/ungültig.\n\n" ++
        "purchaseFlowId: " ++ jsToString (orderKeyOf req.body e) ++ "\n" ++
        "email: " ++
        (if jsTruthy (handlerEmail (payloadOf req.body)
            (extractOrderFromWixPayload (payloadOf req.body))) then
          jsToString (handlerEmail (payloadOf req.body)
            (extractOrderFromWixPayload (payloadOf req.body)))
         else "—") ++ "\n" ++ "vin: ")
      ("\n\n" ++ "Payload (gekürzt):\n" ++ safeJson (payloadOf req.body) 8000 ++ "\n") ?_
    simp only [manualAlertMail, String.append_assoc]
  · refine strContains_of_decomp
      ("Es kam ein Wix Payment-Webhook rein, aber VIN oder Email war leer/ungültig.\n\n" ++
        "purchaseFlowId: " ++ jsToString (orderKeyOf req.body e) ++ "\n" ++ "email: ")
      ("\n" ++ "vin: " ++
        (if handlerVin (payloadOf req.body) vf = "" then "—"
         else handlerVin (payloadOf req.body) vf) ++
        "\n\n" ++ "Payload (gekürzt):\n" ++ safeJson (payloadOf req.body) 8000 ++ "\n") ?_
    simp only [manualAlertMail, String.append_assoc]

/-- C5 witness: the missing-VIN scenario of the specification — the payload
holds a buyer email and no VIN anywhere — yields needs_manual_check, no
buyer mail, and exactly one operator alert. -/
theorem manual_check_path_witness :
    (handleOrderFromWix plainDecodeEnv 0 "abc"
        ⟨none, none, .obj [("order", .obj [("buyerInfo", .obj [("email", .str "a@b.com")])])]⟩
        []).resp = ⟨200, some "needs_manual_check", true⟩ ∧
    (handleOrderFromWix plainDecodeEnv 0 "abc"
        ⟨none, none, .obj [("order", .obj [("buyerInfo", .obj [("email", .str "a@b.com")])])]⟩
        []).eff.buyerMails = [] ∧
    (handleOrderFromWix plainDecodeEnv 0 "abc"
        ⟨none, none, .obj [("order", .obj [("buyerInfo", .obj [("email", .str "a@b.com")])])]⟩
        []).eff.adminMails.length = 1 := by
  have h := manual_check_path plainDecodeEnv 0 "abc"
    ⟨none, none, .obj [("order", .obj [("buyerInfo", .obj [("email", .str "a@b.com")])])]⟩
    [] none rfl rfl (by decide) rfl (by decide)
  refine ⟨h.1, h.2.2.2.1, ?_⟩
  rw [h.2.2.2.2.2.2.1]
  rfl

/-! ## C2: dedupe short-circuit -/

theorem wasProcessed_true_snd {st : DedupeState} {now : Nat} {k : Json}
    (h : (wasProcessed st now k).1 = true) : (wasProcessed st now k).2 = st := by
  unfold wasProcessed at h ⊢
  cases hl : dedupeLookup st k with
  | none => rw [hl] at h
  | some exp =>
    rw [hl] at h
    dsimp only at h ⊢
    by_cases h0 : exp = 0
    · rw [if_pos h0] at h; simp at h
    · rw [if_neg h0] at h ⊢
      by_cases hgt : now > exp
      · rw [if_pos hgt] at h; simp at h
      · rw [if_neg hgt]

theorem orderKeyOf_of_truthy {b : Json}
    (h : jsTruthy (extractPurchaseFlowId (payloadOf b) (extractOrderFromWixPayload (payloadOf b))) = true)
    (e : String) :
    orderKeyOf b e =
      extractPurchaseFlowId (payloadOf b) (extractOrderFromWixPayload (payloadOf b)) := by
  simp [orderKeyOf, jsOr, h]

theorem handle_sent_path (env : Env) (now : Nat) (e : String) (req : Req) (st : DedupeState)
    (vf : Option String)
    (hauth : checkWebhookAuth env req = true)
    (hdup : (wasProcessed st now (orderKeyOf req.body e)).1 = false)
    (hex : extractVinFromOrder (extractOrderFromWixPayload (payloadOf req.body)) = .ok vf)
    (hman : needsManualCheck
      (handlerEmail (payloadOf req.body) (extractOrderFromWixPayload (payloadOf req.body)))
      (handlerVin (payloadOf req.body) vf) = false)
    (hdec : decodeOk env (handlerVin (payloadOf req.body) vf) = true)
    (hpdf : env.pdfEnabled = true) :
    ∃ rep : Report,
      handleOrderFromWix env now e req st =
        ⟨⟨200, some "sent", true⟩,
         markProcessed (wasProcessed st now (orderKeyOf req.body e)).2 now
           (orderKeyOf req.body e),
         ⟨[("decode", sanitizeVin (handlerVin (payloadOf req.body) vf)),
           ("stolen-check", sanitizeVin (handlerVin (payloadOf req.body) vf)),
           ("vehicle-market-value", sanitizeVin (handlerVin (payloadOf req.body) vf))],
          1,
          mailsIf env.emailEnabled
            (buyerMail
              (handlerEmail (payloadOf req.body) (extractOrderFromWixPayload (payloadOf req.body)))
              (handlerVin (payloadOf req.body) vf) rep),
          []⟩⟩ := by
  have hfst : ∃ rep, buildPremiumReport env now (handlerVin (payloadOf req.body) vf)
      (handlerEmail (payloadOf req.body) (extractOrderFromWixPayload (payloadOf req.body))) =
      (.built rep,
       [("decode", sanitizeVin (handlerVin (payloadOf req.body) vf)),
        ("stolen-check", sanitizeVin (handlerVin (payloadOf req.body) vf)),
        ("vehicle-market-value", sanitizeVin (handlerVin (payloadOf req.body) vf))]) := by
    simp only [decodeOk, Bool.and_eq_true] at hdec
    simp only [buildPremiumReport]
    rw [hdec.1, hdec.2]
    exact ⟨_, rfl⟩
  obtain ⟨rep, hb⟩ := hfst
  refine ⟨rep, ?_⟩
  simp only [handleOrderFromWix, hauth, Bool.not_true, Bool.false_eq_true, if_false,
    hdup, hex, hman, hb, hpdf, if_true, reduceIte]

/-- C2: an authenticated delivery whose order key is already present and
unexpired in the dedupe store is answered 200 with the duplicate_ignored
outcome and causes nothing else — no external call, no render, no mail of
any kind, and the store is left untouched; and in the two-delivery
scenario, a successful first delivery with an explicit order id followed
within the TTL by a second delivery of the same body yields
duplicate_ignored with empty effects on the second run, so exactly one
buyer email is dispatched across the two deliveries. -/
theorem dedupe_short_circuit :
    (∀ (env : Env) (now : Nat) (e : String) (req : Req) (st : DedupeState),
      checkWebhookAuth env req = true →
      (wasProcessed st now (orderKeyOf req.body e)).1 = true →
      handleOrderFromWix env now e req st =
        ⟨⟨200, some "duplicate_ignored", true⟩, st, emptyEffects⟩) ∧
    (∀ (env : Env) (now1 now2 : Nat) (e1 e2 : String) (req : Req) (st : DedupeState)
      (vf : Option String),
      checkWebhookAuth env req = true →
      env.emailEnabled = true →
      jsTruthy (extractPurchaseFlowId (payloadOf req.body)
        (extractOrderFromWixPayload (payloadOf req.body))) = true →
      (wasProcessed st now1 (orderKeyOf req.body e1)).1 = false →
      extractVinFromOrder (extractOrderFromWixPayload (payloadOf req.body)) = .ok vf →
      needsManualCheck
        (handlerEmail (payloadOf req.body) (extractOrderFromWixPayload (payloadOf req.body)))
        (handlerVin (payloadOf req.body) vf) = false →
      decodeOk env (handlerVin (payloadOf req.body) vf) = true →
      env.pdfEnabled = true →
      now2 ≤ now1 + DEDUPE_TTL_MS →
      (handleOrderFromWix env now1 e1 req st).resp = ⟨200, some "sent", true⟩ ∧
      (handleOrderFromWix env now1 e1 req st).eff.buyerMails.length = 1 ∧
      handleOrderFromWix env now2 e2 req (handleOrderFromWix env now1 e1 req st).state =
        ⟨⟨200, some "duplicate_ignored", true⟩,
         (handleOrderFromWix env now1 e1 req st).state, emptyEffects⟩ ∧
      (handleOrderFromWix env now1 e1 req st).eff.buyerMails.length +
        (handleOrderFromWix env now2 e2 req
          (handleOrderFromWix env now1 e1 req st).state).eff.buyerMails.length = 1) := by
  constructor
  · intro env now e req st hauth hdup
    have hsnd := wasProcessed_true_snd hdup
    simp only [handleOrderFromWix, hauth, Bool.not_true, Bool.false_eq_true, if_false,
      hdup, if_true, hsnd, reduceIte]
  · intro env now1 now2 e1 e2 req st vf hauth hmail hkey hdup hex hman hdec hpdf hts
    obtain ⟨rep, hr1⟩ := handle_sent_path env now1 e1 req st vf hauth hdup hex hman hdec hpdf
    have hkk : orderKeyOf req.body e2 = orderKeyOf req.body e1 := by
      rw [orderKeyOf_of_truthy hkey, orderKeyOf_of_truthy hkey]
    have hstate : (handleOrderFromWix env now1 e1 req st).state =
        markProcessed (wasProcessed st now1 (orderKeyOf req.body e1)).2 now1
          (orderKeyOf req.body e1) := by
      rw [hr1]
    have hlook : dedupeLookup (handleOrderFromWix env now1 e1 req st).state
        (orderKeyOf req.body e2) = some (now1 + DEDUPE_TTL_MS) := by
      rw [hstate, hkk]
      exact dedupeLookup_set_self _ _ _
    have hwp2 : wasProcessed (handleOrderFromWix env now1 e1 req st).state now2
        (orderKeyOf req.body e2) =
        (true, (handleOrderFromWix env now1 e1 req st).state) := by
      simp only [wasProcessed, hlook]
      rw [if_neg (by simp only [DEDUPE_TTL_MS]; omega),
        if_neg (by simp only [DEDUPE_TTL_MS] at hts ⊢; omega)]
    have hbuyer : (handleOrderFromWix env now1 e1 req st).eff.buyerMails.length = 1 := by
      rw [hr1]
      simp [mailsIf, hmail]
    have hr2 : handleOrderFromWix env now2 e2 req
        (handleOrderFromWix env now1 e1 req st).state =
        ⟨⟨200, some "duplicate_ignored", true⟩,
         (handleOrderFromWix env now1 e1 req st).state, emptyEffects⟩ := by
      generalize hgen : (handleOrderFromWix env now1 e1 req st).state = s1 at hwp2 ⊢
      simp only [handleOrderFromWix, hauth, Bool.not_true, Bool.false_eq_true, if_false,
        hwp2, if_true, reduceIte]
    refine ⟨by rw [hr1], hbuyer, hr2, ?_⟩
    rw [hbuyer, hr2]
    rfl

/-- Request of the C2 witness scenario: explicit order id, VIN, and buyer
email in the body. -/
def dedupWitnessReq : Req :=
  ⟨none, none,
   .obj [("orderId", .str "ord-1"), ("vin", .str "WAUZZZ8K9BA123456"),
         ("order", .obj [("buyerInfo", .obj [("email", .str "a@b.com")])])]⟩

/-- C2 witness: a concrete first delivery is sent, the identical delivery
fifteen minutes of milliseconds later inside the TTL is duplicate_ignored
with no effects, and one buyer email is dispatched across the two. -/
theorem dedupe_short_circuit_witness :
    (handleOrderFromWix plainDecodeEnv 5 "aa" dedupWitnessReq []).resp =
      ⟨200, some "sent", true⟩ ∧
    handleOrderFromWix plainDecodeEnv 1000 "bb" dedupWitnessReq
        (handleOrderFromWix plainDecodeEnv 5 "aa" dedupWitnessReq []).state =
      ⟨⟨200, some "duplicate_ignored", true⟩,
       (handleOrderFromWix plainDecodeEnv 5 "aa" dedupWitnessReq []).state, emptyEffects⟩ ∧
    (handleOrderFromWix plainDecodeEnv 5 "aa" dedupWitnessReq []).eff.buyerMails.length +
      (handleOrderFromWix plainDecodeEnv 1000 "bb" dedupWitnessReq
        (handleOrderFromWix plainDecodeEnv 5 "aa" dedupWitnessReq []).state).eff.buyerMails.length
      = 1 := by
  have h := dedupe_short_circuit.2 plainDecodeEnv 5 1000 "aa" "bb" dedupWitnessReq [] none
    rfl rfl (by decide) rfl rfl (by decide) (by decide) rfl (by decide)
  exact ⟨h.1, h.2.2.1, h.2.2.2⟩
